import Mathlib

/-!
Verification development for the SEC-Document-Scraper backend
(`backend/app.py`).  The Python source is shallowly embedded: strings are
`List Char`, machine/byte arithmetic is `Nat` with explicit `% 2 ^ 32`,
the Firestore document tree is an explicit association-list state, and the
network/extractor boundary is a parameter of the orchestration function.
-/

namespace SecScraper

/-! ## Basic string utilities (Python `str` operations on `List Char`) -/

/-- Python whitespace characters, as used by `str.strip()` (ASCII part). -/
def pySpace (c : Char) : Bool :=
  c = ' ' || c = '\t' || c = '\n' || c = '\r' || c = Char.ofNat 0x0b || c = Char.ofNat 0x0c

/-- Python `str.upper()` (ASCII behaviour, character-wise). -/
def toUpperL (l : List Char) : List Char := l.map Char.toUpper

/-- Python `str.lower()` (ASCII behaviour, character-wise). -/
def toLowerL (l : List Char) : List Char := l.map Char.toLower

/-- Python `small in big` substring test. -/
def subIn (small : List Char) : List Char → Bool
  | [] => small.isEmpty
  | c :: rest => small.isPrefixOf (c :: rest) || subIn small rest

/-- Python `str.strip()`: remove leading and trailing whitespace. -/
def pyStrip (l : List Char) : List Char :=
  ((l.dropWhile pySpace).reverse.dropWhile pySpace).reverse

/-! ## Association lists (the Firestore document/key-value model) -/

/-- Lookup a document by key. -/
def alookup {V : Type} : List (List Char × V) → List Char → Option V
  | [], _ => none
  | p :: ps, k => if p.1 = k then some p.2 else alookup ps k

/-- Upsert a document (Firestore `document(k).set(v)` replacement write). -/
def aset {V : Type} : List (List Char × V) → List Char → V → List (List Char × V)
  | [], k, v => [(k, v)]
  | p :: ps, k, v => if p.1 = k then (k, v) :: ps else p :: aset ps k v

/-! ## MD5 (`hashlib.md5`), on UTF-8 byte lists, words as `Nat % 2^32` -/

/-- UTF-8 encoding of one Unicode code point. -/
def utf8EncodeNat (c : Nat) : List Nat :=
  if c < 0x80 then [c]
  else if c < 0x800 then [0xc0 + c / 64, 0x80 + c % 64]
  else if c < 0x10000 then [0xe0 + c / 4096, 0x80 + (c / 64) % 64, 0x80 + c % 64]
  else [0xf0 + c / 262144, 0x80 + (c / 4096) % 64, 0x80 + (c / 64) % 64, 0x80 + c % 64]

/-- Python `url.encode()`: UTF-8 bytes of a string. -/
def utf8Bytes (l : List Char) : List Nat := l.flatMap (fun c => utf8EncodeNat c.toNat)

/-- The MD5 per-round shift amounts. -/
def md5s : List Nat :=
  [7, 12, 17, 22, 7, 12, 17, 22, 7, 12, 17, 22, 7, 12, 17, 22,
   5, 9, 14, 20, 5, 9, 14, 20, 5, 9, 14, 20, 5, 9, 14, 20,
   4, 11, 16, 23, 4, 11, 16, 23, 4, 11, 16, 23, 4, 11, 16, 23,
   6, 10, 15, 21, 6, 10, 15, 21, 6, 10, 15, 21, 6, 10, 15, 21]

/-- The MD5 sine-derived round constants. -/
def md5K : List Nat :=
  [0xd76aa478, 0xe8c7b756, 0x242070db, 0xc1bdceee,
   0xf57c0faf, 0x4787c62a, 0xa8304613, 0xfd469501,
   0x698098d8, 0x8b44f7af, 0xffff5bb1, 0x895cd7be,
   0x6b901122, 0xfd987193, 0xa679438e, 0x49b40821,
   0xf61e2562, 0xc040b340, 0x265e5a51, 0xe9b6c7aa,
   0xd62f105d, 0x02441453, 0xd8a1e681, 0xe7d3fbc8,
   0x21e1cde6, 0xc33707d6, 0xf4d50d87, 0x455a14ed,
   0xa9e3e905, 0xfcefa3f8, 0x676f02d9, 0x8d2a4c8a,
   0xfffa3942, 0x8771f681, 0x6d9d6122, 0xfde5380c,
   0xa4beea44, 0x4bdecfa9, 0xf6bb4b60, 0xbebfbc70,
   0x289b7ec6, 0xeaa127fa, 0xd4ef3085, 0x04881d05,
   0xd9d4d039, 0xe6db99e5, 0x1fa27cf8, 0xc4ac5665,
   0xf4292244, 0x432aff97, 0xab9423a7, 0xfc93a039,
   0x655b59c3, 0x8f0ccc92, 0xffeff47d, 0x85845dd1,
   0x6fa87e4f, 0xfe2ce6e0, 0xa3014314, 0x4e0811a1,
   0xf7537e82, 0xbd3af235, 0x2ad7d2bb, 0xeb86d391]

/-- 32-bit left rotation on `Nat` (values kept below `2 ^ 32`). -/
def rotl32 (x c : Nat) : Nat := (x * 2 ^ c + x / 2 ^ (32 - c)) % 2 ^ 32

/-- 32-bit complement. -/
def not32 (x : Nat) : Nat := 0xffffffff - x

/-- MD5 message padding: `0x80`, zeros to 56 mod 64, then the original
bit length as 8 little-endian bytes. -/
def md5Pad (msg : List Nat) : List Nat :=
  let padLen := (55 + 64 - msg.length % 64) % 64 + 1
  let bitLen := (msg.length * 8) % 2 ^ 64
  msg ++ (0x80 :: List.replicate (padLen - 1) 0)
      ++ (List.range 8).map (fun i => bitLen / 2 ^ (8 * i) % 256)

/-- Split a padded message into 64-byte blocks. -/
def md5Blocks (padded : List Nat) : List (List Nat) :=
  (List.range (padded.length / 64)).map (fun i => (padded.drop (64 * i)).take 64)

/-- Little-endian 32-bit word `g` of a 64-byte block. -/
def md5Word (block : List Nat) (g : Nat) : Nat :=
  block.getD (4 * g) 0 + block.getD (4 * g + 1) 0 * 2 ^ 8
    + block.getD (4 * g + 2) 0 * 2 ^ 16 + block.getD (4 * g + 3) 0 * 2 ^ 24

/-- One MD5 round `i` acting on state `(A, B, C, D)` with message block. -/
def md5Round (block : List Nat) (st : Nat × Nat × Nat × Nat) (i : Nat) :
    Nat × Nat × Nat × Nat :=
  let (a, b, c, d) := st
  let fg : Nat × Nat :=
    if i < 16 then (b.land c |>.lor ((not32 b).land d), i)
    else if i < 32 then (d.land b |>.lor ((not32 d).land c), (5 * i + 1) % 16)
    else if i < 48 then (b.xor c |>.xor d, (3 * i + 5) % 16)
    else (c.xor (b.lor (not32 d)), (7 * i) % 16)
  let f := (fg.1 + a + md5K.getD i 0 + md5Word block fg.2) % 2 ^ 32
  (d, (b + rotl32 f (md5s.getD i 0)) % 2 ^ 32, b, c)

/-- Process one 64-byte block, updating the running digest state. -/
def md5Block (st : Nat × Nat × Nat × Nat) (block : List Nat) :
    Nat × Nat × Nat × Nat :=
  let (a0, b0, c0, d0) := st
  let (a, b, c, d) := (List.range 64).foldl (md5Round block) st
  ((a0 + a) % 2 ^ 32, (b0 + b) % 2 ^ 32, (c0 + c) % 2 ^ 32, (d0 + d) % 2 ^ 32)

/-- The 16 digest bytes (little-endian words of the final state). -/
def md5Digest (msg : List Nat) : List Nat :=
  let (a, b, c, d) := (md5Blocks (md5Pad msg)).foldl md5Block
    (0x67452301, 0xefcdab89, 0x98badcfe, 0x10325476)
  [a, b, c, d].flatMap (fun w => (List.range 4).map (fun i => w / 2 ^ (8 * i) % 256))

/-- One lowercase hex digit. -/
def hexDigit (n : Nat) : Char :=
  if n < 10 then Char.ofNat (48 + n) else Char.ofNat (87 + n)

/-- Python `hashlib.md5(bytes).hexdigest()`. -/
def md5Hex (msg : List Nat) : List Char :=
  msg |> md5Digest |>.flatMap (fun byte => [hexDigit (byte / 16), hexDigit (byte % 16)])

/-- `generate_filing_id` (app.py:67-82): first 12 hex characters of the MD5
digest of the UTF-8 encoded URL. -/
def generate_filing_id (url : List Char) : List Char :=
  (md5Hex (utf8Bytes url)).take 12

/-! ## `generate_session_id` (app.py:84-96) -/

/-- A UTC wall-clock instant as `datetime.datetime.utcnow()` observes it. -/
structure PyDateTime where
  year : Nat
  month : Nat
  day : Nat
  hour : Nat
  minute : Nat
  second : Nat
  microsecond : Nat
deriving DecidableEq

/-- Decimal digits of a `Nat` zero-padded to width `w` (`strftime` padding). -/
def padNat (w n : Nat) : List Char :=
  let ds := Nat.toDigits 10 n
  List.replicate (w - ds.length) '0' ++ ds

/-- `generate_session_id` (app.py:84-96):
`utcnow().strftime("%Y-%m-%d_%H-%M-%S")`.  The microsecond field of the
clock is not part of the format. -/
def generate_session_id (t : PyDateTime) : List Char :=
  padNat 4 t.year ++ '-' :: padNat 2 t.month ++ '-' :: padNat 2 t.day
    ++ '_' :: padNat 2 t.hour ++ '-' :: padNat 2 t.minute ++ '-' :: padNat 2 t.second

/-! ## `detect_filing_type` (app.py:239-260) -/

/-- Whether `re.search(pat, url, re.IGNORECASE)` matches for the pattern
`pre + "-?" + suf`: the hyphenated or plain spelling occurs in the
lowercased URL. -/
def searchOptHyphen (pre suf : List Char) (url : List Char) : Bool :=
  subIn (pre ++ '-' :: suf) (toLowerL url) || subIn (pre ++ suf) (toLowerL url)

/-- `detect_filing_type` (app.py:239-260): ordered case-insensitive pattern
tests, defaulting to `"10-K"`. -/
def detect_filing_type (url : List Char) : List Char :=
  if searchOptHyphen "10".data "k".data url then "10-K".data
  else if searchOptHyphen "10".data "q".data url then "10-Q".data
  else if searchOptHyphen "8".data "k".data url then "8-K".data
  else "10-K".data

/-! ## `validate_section_content` (app.py:262-333) -/

/-- The marker-rule table of `validate_section_content` (app.py:283-318):
the `expected_headers` list computed for a `(filing kind, section)` pair. -/
def expected_headers (filing_type requested_section : List Char) : List (List Char) :=
  if filing_type = "10-K".data then
    if requested_section = "1".data then
      ["ITEM 1.".data, "ITEM 1 ".data, "BUSINESS".data]
    else if requested_section = "1A".data then
      ["ITEM 1A.".data, "ITEM 1A ".data, "RISK FACTORS".data]
    else if requested_section = "1B".data then
      ["ITEM 1B.".data, "ITEM 1B ".data, "UNRESOLVED STAFF COMMENTS".data]
    else if requested_section = "2".data then
      ["ITEM 2.".data, "ITEM 2 ".data, "PROPERTIES".data]
    else if requested_section = "3".data then
      ["ITEM 3.".data, "ITEM 3 ".data, "LEGAL PROCEEDINGS".data]
    else if requested_section = "7".data then
      ["ITEM 7.".data, "ITEM 7 ".data, "MANAGEMENT'S DISCUSSION".data]
    else if requested_section = "7A".data then
      ["ITEM 7A.".data, "ITEM 7A ".data, "QUANTITATIVE AND QUALITATIVE".data]
    else
      ["ITEM ".data ++ requested_section ++ ['.'], "ITEM ".data ++ requested_section ++ [' ']]
  else if filing_type = "10-Q".data then
    if subIn "part1item1".data (toLowerL requested_section) then
      ["PART I".data, "ITEM 1".data, "FINANCIAL STATEMENTS".data]
    else if subIn "part1item2".data (toLowerL requested_section) then
      ["ITEM 2".data, "MANAGEMENT'S DISCUSSION".data]
    else
      ["PART".data, "ITEM".data]
  else if filing_type = "8-K".data then
    let item_num := if requested_section.contains '-' then
        requested_section.takeWhile (fun c => c ≠ '-') else requested_section
    ["ITEM ".data ++ item_num, "ITEM ".data ++ requested_section]
  else []

/-- `validate_section_content` (app.py:262-333): empty content fails; with
markers for the pair, succeed iff one occurs in the uppercased content;
with no markers, succeed. -/
def validate_section_content (content requested_section filing_type : List Char) : Bool :=
  if content = [] then false
  else
    let content_upper := toUpperL content
    let hs := expected_headers filing_type requested_section
    if hs.isEmpty then true
    else hs.any (fun h => subIn h content_upper)

/-! ## The `scrape` per-section loop (app.py:447-531) -/

/-- Outcome of one call to the external extractor
(`extractor.get_section(url, section_id, "text")`): returned text (possibly
empty) or a raised exception with message. -/
inductive ExtractResult where
  | ok (text : List Char)
  | err (msg : List Char)
deriving DecidableEq

/-- One entry of `results_for_storage` / `results_for_display`: the section
dictionaries built by the loop.  Missing dictionary keys are modelled by the
defaults that `section.get(key, default)` supplies on the storage side. -/
structure SectionEntry where
  sectionId : List Char
  success : Bool
  content : List Char := []
  content_length : Nat := 0
  error : List Char := []
deriving DecidableEq

/-- The display-side truncation (app.py:490):
`section_content[:500] + "..." if len(section_content) > 500 else section_content`. -/
def truncateDisplay (t : List Char) : List Char :=
  if t.length > 500 then t.take 500 ++ "...".data else t

/-- Process one occurrence of a requested section (one iteration of the loop
at app.py:448-531) given that occurrence's extractor outcome.  Returns the
storage entry and the display entry appended for it. -/
def processOne (r : ExtractResult) (section_id filing_type : List Char) :
    SectionEntry × SectionEntry :=
  match r with
  | .err e =>
      let entry : SectionEntry := { sectionId := section_id, success := false, error := e }
      (entry, entry)
  | .ok text =>
      if text ≠ [] ∧ pyStrip text ≠ [] then
        if validate_section_content text section_id filing_type then
          ({ sectionId := section_id, success := true,
             content_length := text.length, content := text },
           { sectionId := section_id, success := true,
             content_length := text.length, content := truncateDisplay text })
        else
          let msg := "Section ".data ++ section_id
            ++ " not found in this document (API returned different section)".data
          let entry : SectionEntry := { sectionId := section_id, success := false, error := msg }
          (entry, entry)
      else
        let entry : SectionEntry :=
          { sectionId := section_id, success := false, error := "No content found".data }
        (entry, entry)

/-- Aggregate of the `scrape` loop: the two result lists and the
success/failure counters. -/
structure RunResult where
  storage : List SectionEntry
  display : List SectionEntry
  successful : Nat
  failed : Nat
deriving DecidableEq

/-- The `scrape` loop over the caller-supplied section list.  The external
extractor is a function `ext` of the occurrence index (each occurrence makes
its own call, so repeated identifiers may see different outcomes); `i` is the
index of the first occurrence still to process. -/
def scrapeLoop (ext : Nat → ExtractResult) (filing_type : List Char) :
    List (List Char) → Nat → RunResult
  | [], _ => ⟨[], [], 0, 0⟩
  | sid :: rest, i =>
      let pr := processOne (ext i) sid filing_type
      let r := scrapeLoop ext filing_type rest (i + 1)
      ⟨pr.1 :: r.storage, pr.2 :: r.display,
       (if pr.2.success then 1 else 0) + r.successful,
       (if pr.2.success then 0 else 1) + r.failed⟩

/-! ## The Firestore state model and `save_to_firestore` (app.py:98-237) -/

/-- A document of a session's `sections` sub-collection (app.py:206-214). -/
structure SectionDoc where
  section_id : List Char
  content : List Char
  content_length : Nat
  success : Bool
  error : List Char
  scraped_at : PyDateTime
  session_id : List Char
deriving DecidableEq

/-- A `scrape_sessions` document (app.py:180-188) together with its
`sections` sub-collection (sub-collections survive a plain `set` on the
parent document). -/
structure SessionDoc where
  scraped_at : PyDateTime
  sections_count : Nat
  successful_sections : Nat
  failed_sections : Nat
  requested_sections : List (List Char)
  filing_type : List Char
  filing_url : List Char
  sections : List (List Char × SectionDoc)
deriving DecidableEq

/-- A `filings` document (app.py:162-173) together with its
`scrape_sessions` sub-collection. -/
structure FilingDoc where
  url : List Char
  filing_type : List Char
  latest_session_id : List Char
  latest_scrape_at : PyDateTime
  total_unique_sections : Nat
  total_sessions : Nat
  first_scraped_at : Option PyDateTime
  sessions : List (List Char × SessionDoc)
deriving DecidableEq

/-- The durable store: the `filings` collection keyed by filing id. -/
abbrev Store := List (List Char × FilingDoc)

/-- Where a simulated backend failure strikes inside the `try` block of
`save_to_firestore`: at the filing upsert (app.py:175), at the session write
(app.py:189), at the section batch commit (app.py:228), or nowhere.  A write
that raises has no effect; writes already performed stay. -/
inductive FailAt where
  | atFilingSet
  | atSessionSet
  | atBatch
  | noFail
deriving DecidableEq

/-- The scan at app.py:141-155: successful section ids of one session's
stored `sections` documents (`section_doc.id` with `success` true). -/
def storedSuccessIds (secs : List (List Char × SectionDoc)) : Finset (List Char) :=
  ((secs.filter (fun p => p.2.success)).map (fun p => p.1)).toFinset

/-- The scan at app.py:141-155 over all existing sessions: the union of each
session's stored successful section ids. -/
def scanUnion (sessions : List (List Char × SessionDoc)) : Finset (List Char) :=
  sessions.foldl (fun acc p => acc ∪ storedSuccessIds p.2.sections) ∅

/-- The section document written for one outcome (app.py:206-214). -/
def mkSectionDoc (e : SectionEntry) (session_id : List Char) (now : PyDateTime) :
    SectionDoc :=
  { section_id := e.sectionId, content := e.content,
    content_length := e.content_length, success := e.success,
    error := e.error, scraped_at := now, session_id := session_id }

/-- The batch of `batch.set` calls (app.py:196-224): upsert one section
document per outcome into a session's `sections` sub-collection (a repeated
identifier overwrites the same document in place). -/
def applyBatch (secs : List (List Char × SectionDoc))
    (data : List SectionEntry) (session_id : List Char) (now : PyDateTime) :
    List (List Char × SectionDoc) :=
  data.foldl (fun m e => aset m e.sectionId (mkSectionDoc e session_id now)) secs

/-- `session_ref.set(session_data)` (app.py:189): replace the session
document's fields; an existing `sections` sub-collection survives. -/
def setSessionDoc (sessions : List (List Char × SessionDoc)) (sid : List Char)
    (doc : SessionDoc) : List (List Char × SessionDoc) :=
  match alookup sessions sid with
  | some old => aset sessions sid { doc with sections := old.sections }
  | none => aset sessions sid { doc with sections := [] }

/-- `save_to_firestore` (app.py:98-237) over the explicit store, with a
failure-injection point.  Returns the store after the call and the
function's `(success, filing_id, session_id)` result. -/
def save_to_firestore (available : Bool) (fail : FailAt) (store : Store)
    (filing_url filing_type : List Char) (sections_data : List SectionEntry)
    (requested_sections : List (List Char)) (now : PyDateTime) :
    Store × (Bool × Option (List Char) × Option (List Char)) :=
  if ¬ available then (store, (false, none, none))
  else
    let filing_id := generate_filing_id filing_url
    let session_id := generate_session_id now
    let existing := alookup store filing_id
    let all_unique_sections : Finset (List Char) :=
      (match existing with
       | some f => scanUnion f.sessions
       | none => ∅) ∪
      ((sections_data.filter (fun s => s.success)).map (fun s => s.sectionId)).toFinset
    let existing_count := match existing with
      | some f => f.sessions.length
      | none => 0
    if fail = .atFilingSet then (store, (false, none, none))
    else
      let filingDoc : FilingDoc :=
        match existing with
        | some old =>
            { old with
              url := filing_url, filing_type := filing_type,
              latest_session_id := session_id, latest_scrape_at := now,
              total_unique_sections := all_unique_sections.card,
              total_sessions := existing_count + 1 }
        | none =>
            { url := filing_url, filing_type := filing_type,
              latest_session_id := session_id, latest_scrape_at := now,
              total_unique_sections := all_unique_sections.card,
              total_sessions := existing_count + 1,
              first_scraped_at := some now, sessions := [] }
      let store1 := aset store filing_id filingDoc
      if fail = .atSessionSet then (store1, (false, none, none))
      else
        let sessionDoc : SessionDoc :=
          { scraped_at := now, sections_count := sections_data.length,
            successful_sections := (sections_data.filter (fun s => s.success)).length,
            failed_sections := (sections_data.filter (fun s => ¬ s.success)).length,
            requested_sections := requested_sections,
            filing_type := filing_type, filing_url := filing_url, sections := [] }
        let store2 := match alookup store1 filing_id with
          | some f => aset store1 filing_id
              { f with sessions := setSessionDoc f.sessions session_id sessionDoc }
          | none => store1
        if fail = .atBatch then (store2, (false, none, none))
        else
          let store3 := match alookup store2 filing_id with
            | some f => aset store2 filing_id
                { f with sessions :=
                    match alookup f.sessions session_id with
                    | some sdoc => aset f.sessions session_id
                        { sdoc with sections :=
                            applyBatch sdoc.sections sections_data session_id now }
                    | none => f.sessions }
            | none => store2
          (store3, (true, some filing_id, some session_id))

/-! ## The `scrape` endpoint (app.py:397-550) -/

/-- The JSON payload returned by a successful `/scrape` call
(app.py:539-550). -/
structure ScrapeResponse where
  filing_type : List Char
  filing_id : Option (List Char)
  session_id : Option (List Char)
  firestore_saved : Bool
  successful_sections : Nat
  failed_sections : Nat
  total_sections : Nat
  results : List SectionEntry
deriving DecidableEq

/-- `scrape` (app.py:397-550): input validation, the per-section loop, the
persistence call, and the response.  `Except` carries the 400-error message
of a rejected request; the store after the call is returned alongside. -/
def scrape (ext : Nat → ExtractResult) (available : Bool) (fail : FailAt)
    (store : Store) (filing_url : List Char) (sections : List (List Char))
    (now : PyDateTime) : Store × Except (List Char) ScrapeResponse :=
  if filing_url.isEmpty then (store, .error "Missing filing URL".data)
  else if sections.isEmpty then (store, .error "No sections selected".data)
  else if ¬ subIn "sec.gov".data filing_url then
    (store, .error "Please provide a valid SEC.gov URL".data)
  else
    let filing_type := detect_filing_type filing_url
    let run := scrapeLoop ext filing_type sections 0
    let sres :=
      save_to_firestore available fail store filing_url filing_type run.storage sections now
    (sres.1, .ok
      { filing_type := filing_type, filing_id := sres.2.2.1, session_id := sres.2.2.2,
        firestore_saved := sres.2.1, successful_sections := run.successful,
        failed_sections := run.failed, total_sections := sections.length,
        results := run.display })

/-! ## Derived notions used by the claims -/

/-- The `sections` sub-collection of one session, as read back through the
hierarchy (`/filings/{fid}/sessions/{sid}/sections`, app.py:630-667). -/
def sessionSections (store : Store) (fid sid : List Char) :
    Option (List (List Char × SectionDoc)) :=
  match alookup store fid with
  | some f => (alookup f.sessions sid).map (fun s => s.sections)
  | none => none

/-- Section identifiers with at least one successful outcome in a run's
`sections_data` list (app.py:158). -/
def anySuccessIds (data : List SectionEntry) : Finset (List Char) :=
  ((data.filter (fun e => e.success)).map (fun e => e.sectionId)).toFinset

/-- A run's outcome list never records conflicting success flags for a
repeated section identifier (holds in particular when no identifier
repeats). -/
def dupConsistent (data : List SectionEntry) : Prop :=
  ∀ e ∈ data, ∀ e' ∈ data, e.sectionId = e'.sectionId → e.success = e'.success

instance (data : List SectionEntry) : Decidable (dupConsistent data) := by
  unfold dupConsistent; infer_instance

/-- One extraction run handed to the Session Store. -/
structure Run where
  data : List SectionEntry
  requested : List (List Char)
  time : PyDateTime

/-- Commit a list of runs sequentially through `save_to_firestore`
(store available, no injected failure). -/
def commitRuns (store : Store) (url ft : List Char) : List Run → Store
  | [] => store
  | r :: rs =>
      commitRuns ((save_to_firestore true .noFail store url ft r.data r.requested r.time).1)
        url ft rs

/-- The set-union across runs of each run's successful section identifiers. -/
def unionRuns (runs : List Run) : Finset (List Char) :=
  runs.foldl (fun acc r => acc ∪ anySuccessIds r.data) ∅

/-- Modelled from the spec: §4.3 says explicit marker rules exist only for
the well-known sections of each kind (the specifically enumerated branches
of the validator's table); any other pair — e.g. an uncommon section
identifier — is said to have no explicit rule. -/
def hasExplicitMarkerRule (ft s : List Char) : Bool :=
  (ft = "10-K".data &&
    (s = "1".data || s = "1A".data || s = "1B".data || s = "2".data
      || s = "3".data || s = "7".data || s = "7A".data)) ||
  (ft = "10-Q".data &&
    (subIn "part1item1".data (toLowerL s) || subIn "part1item2".data (toLowerL s)))

/-- Default entry used with `List.getD` when indexing result lists. -/
def d0 : SectionEntry := { sectionId := [], success := false }

/-! ## Concrete fixtures used by witnesses and counterexamples -/

/-- A concrete SEC filing URL. -/
def urlW : List Char := "https://www.sec.gov/Archives/edgar/data/acme-10k.htm".data

/-- A concrete clock instant. -/
def dtW1 : PyDateTime := ⟨2025, 7, 28, 12, 30, 45, 100⟩

/-- A later instant inside the same second. -/
def dtW2 : PyDateTime := ⟨2025, 7, 28, 12, 30, 45, 900⟩

/-- An extractor double whose three calls all return valid 10-K content. -/
def extW : Nat → ExtractResult := fun i =>
  if i = 0 then .ok "ITEM 7A. QUANTITATIVE AND QUALITATIVE x".data
  else if i = 1 then .ok "ITEM 1. BUSINESS y".data
  else .ok "ITEM 9A. CONTROLS AND PROCEDURES".data

/-- An extractor double: first call returns valid section 1 content, every
later call raises. -/
def extMixed : Nat → ExtractResult := fun i =>
  if i = 0 then .ok "ITEM 1. BUSINESS hello".data else .err "timeout".data

/-- A successful stored outcome for section `1`. -/
def entryOkW : SectionEntry :=
  { sectionId := "1".data, success := true,
    content := "ITEM 1. BUSINESS x".data, content_length := 18 }

/-- A failed outcome for section `1`. -/
def entryFailW : SectionEntry :=
  { sectionId := "1".data, success := false, error := "timeout".data }

/-- The sessions sub-collection an incoming `save_to_firestore` call reads
for a filing (empty when the filing document does not exist). -/
def oldSessions (store : Store) (fid : List Char) : List (List Char × SessionDoc) :=
  match alookup store fid with
  | some f => f.sessions
  | none => []

/-- The session identifier a run will receive. -/
def sidOf (r : Run) : List Char := generate_session_id r.time

/-- The last outcome recorded for section identifier `x` in a run's
outcome list (the entry whose `batch.set` wins). -/
def lastWith : List SectionEntry → List Char → Option SectionEntry
  | [], _ => none
  | e :: rest, x =>
      match lastWith rest x with
      | some e' => some e'
      | none => if e.sectionId = x then some e else none

/-- Invariant of the committed store after a list of runs: the filing
document exists (unless no run committed), its sessions carry exactly the
runs' identifiers in order, the union of stored successful section ids over
its sessions is the union over the runs, and `total_unique_sections` is that
union's size. -/
def InvC2 (store : Store) (url : List Char) (done : List Run) : Prop :=
  (done = [] ∧ alookup store (generate_filing_id url) = none) ∨
  (∃ f, alookup store (generate_filing_id url) = some f ∧
    f.sessions.map Prod.fst = done.map sidOf ∧
    scanUnion f.sessions = unionRuns done ∧
    f.total_unique_sections = (unionRuns done).card)

/-- A later clock instant in the following second. -/
def dtW3 : PyDateTime := ⟨2025, 7, 28, 12, 30, 46, 0⟩

/-- A successful stored outcome for section `2`. -/
def entryOk2W : SectionEntry :=
  { sectionId := "2".data, success := true,
    content := "ITEM 2. PROPERTIES x".data, content_length := 20 }

/-- A first concrete run. -/
def runW1 : Run := ⟨[entryOkW], ["1".data], dtW1⟩

/-- A second concrete run in a later second, adding section 2. -/
def runW2 : Run := ⟨[entryOkW, entryOk2W], ["1".data, "2".data], dtW3⟩

/-! ## Helper lemmas: association lists -/

theorem alookup_aset_self {V : Type} (l : List (List Char × V)) (k : List Char) (v : V) :
    alookup (aset l k v) k = some v := by
  induction l with
  | nil => simp [aset, alookup]
  | cons p ps ih =>
      by_cases h : p.1 = k
      · simp [aset, h, alookup]
      · simp [aset, h, alookup, ih]

theorem alookup_aset_ne {V : Type} (l : List (List Char × V)) (k k' : List Char) (v : V)
    (h : k' ≠ k) : alookup (aset l k v) k' = alookup l k' := by
  have h' : ¬ k = k' := fun hh => h hh.symm
  induction l with
  | nil => simp [aset, alookup, h']
  | cons p ps ih =>
      by_cases hp : p.1 = k
      · simp [aset, if_pos hp, alookup, hp, h']
      · simp only [aset, if_neg hp, alookup, ih]

theorem aset_fresh_append {V : Type} (l : List (List Char × V)) (k : List Char) (v : V)
    (h : alookup l k = none) : aset l k v = l ++ [(k, v)] := by
  induction l with
  | nil => simp [aset]
  | cons p ps ih =>
      simp only [alookup] at h
      by_cases hp : p.1 = k
      · simp [hp] at h
      · simp only [aset, hp, if_neg hp] at *
        simp [ih h]

/-! ## Helper lemmas: substrings, whitespace, the validator -/

theorem subIn_subset {s b : List Char} (h : subIn s b = true) : ∀ c ∈ s, c ∈ b := by
  induction b with
  | nil =>
      simp only [subIn, List.isEmpty_iff] at h
      simp [h]
  | cons x rest ih =>
      simp only [subIn, Bool.or_eq_true] at h
      rcases h with h | h
      · exact fun c hc => (List.isPrefixOf_iff_prefix.mp h).sublist.subset hc
      · exact fun c hc => List.mem_cons_of_mem x (ih h c hc)

theorem pySpace_toUpper {c : Char} (h : pySpace c = true) : c.toUpper = c := by
  simp only [pySpace, Bool.or_eq_true, decide_eq_true_eq] at h
  rcases h with ((((h | h) | h) | h) | h) | h <;> subst h <;> decide

theorem pySpace_toUpperL {content : List Char} (h : ∀ c ∈ content, pySpace c = true) :
    ∀ c ∈ toUpperL content, pySpace c = true := by
  intro c hc
  rcases List.mem_map.mp hc with ⟨c', hc', rfl⟩
  rw [pySpace_toUpper (h c' hc')]
  exact h c' hc'

/-- Every marker generated for one of the three filing kinds contains a
non-whitespace character (every branch's markers start with a capital
letter). -/
theorem expected_headers_solid (ft s : List Char)
    (hft : ft = "10-K".data ∨ ft = "10-Q".data ∨ ft = "8-K".data) :
    ∀ h ∈ expected_headers ft s, ∃ c ∈ h, pySpace c = false := by
  have hI : ∀ (tail : List Char), ∃ c ∈ "ITEM ".data ++ tail, pySpace c = false :=
    fun tail => ⟨'I', List.mem_append.mpr (Or.inl (by decide)), by decide⟩
  rcases hft with rfl | rfl | rfl
  · unfold expected_headers
    rw [if_pos rfl]
    by_cases h1 : s = "1".data
    · rw [if_pos h1]; decide
    rw [if_neg h1]
    by_cases h2 : s = "1A".data
    · rw [if_pos h2]; decide
    rw [if_neg h2]
    by_cases h3 : s = "1B".data
    · rw [if_pos h3]; decide
    rw [if_neg h3]
    by_cases h4 : s = "2".data
    · rw [if_pos h4]; decide
    rw [if_neg h4]
    by_cases h5 : s = "3".data
    · rw [if_pos h5]; decide
    rw [if_neg h5]
    by_cases h6 : s = "7".data
    · rw [if_pos h6]; decide
    rw [if_neg h6]
    by_cases h7 : s = "7A".data
    · rw [if_pos h7]; decide
    rw [if_neg h7]
    intro h hm
    simp only [List.mem_cons, List.not_mem_nil, or_false] at hm
    rcases hm with rfl | rfl <;> exact hI _
  · unfold expected_headers
    rw [if_neg (by decide), if_pos rfl]
    by_cases h1 : subIn "part1item1".data (toLowerL s) = true
    · rw [if_pos h1]; decide
    rw [if_neg h1]
    by_cases h2 : subIn "part1item2".data (toLowerL s) = true
    · rw [if_pos h2]; decide
    rw [if_neg h2]; decide
  · unfold expected_headers
    rw [if_neg (by decide), if_neg (by decide), if_pos rfl]
    intro h hm
    simp only [List.mem_cons, List.not_mem_nil, or_false] at hm
    rcases hm with rfl | rfl <;> exact hI _

/-- For the three filing kinds the marker list is never empty: every section
identifier falls into some branch of the rule table. -/
theorem expected_headers_ne_nil (ft s : List Char)
    (hft : ft = "10-K".data ∨ ft = "10-Q".data ∨ ft = "8-K".data) :
    (expected_headers ft s).isEmpty = false := by
  rcases hft with rfl | rfl | rfl
  · unfold expected_headers
    rw [if_pos rfl]
    by_cases h1 : s = "1".data
    · rw [if_pos h1]; rfl
    rw [if_neg h1]
    by_cases h2 : s = "1A".data
    · rw [if_pos h2]; rfl
    rw [if_neg h2]
    by_cases h3 : s = "1B".data
    · rw [if_pos h3]; rfl
    rw [if_neg h3]
    by_cases h4 : s = "2".data
    · rw [if_pos h4]; rfl
    rw [if_neg h4]
    by_cases h5 : s = "3".data
    · rw [if_pos h5]; rfl
    rw [if_neg h5]
    by_cases h6 : s = "7".data
    · rw [if_pos h6]; rfl
    rw [if_neg h6]
    by_cases h7 : s = "7A".data
    · rw [if_pos h7]; rfl
    rw [if_neg h7]; rfl
  · unfold expected_headers
    rw [if_neg (by decide), if_pos rfl]
    by_cases h1 : subIn "part1item1".data (toLowerL s) = true
    · rw [if_pos h1]; rfl
    rw [if_neg h1]
    by_cases h2 : subIn "part1item2".data (toLowerL s) = true
    · rw [if_pos h2]; rfl
    rw [if_neg h2]; rfl
  · unfold expected_headers
    rw [if_neg (by decide), if_neg (by decide), if_pos rfl]
    rfl

/-! ## Claims C4 and C5: the Content Validator -/

/-- C4, counterexample: `("10-K", "9Z")` is not one of the well-known pairs
the spec counts as having an explicit marker rule, yet a non-empty text
without the generic `ITEM 9Z` marker fails validation — the code is not
unconditionally permissive on such pairs. -/
theorem validator_not_permissive_without_explicit_rule_cex :
    hasExplicitMarkerRule "10-K".data "9Z".data = false ∧
    "SOME FILLER TEXT".data ≠ ([] : List Char) ∧
    validate_section_content "SOME FILLER TEXT".data "9Z".data "10-K".data = false := by
  decide

/-- C4 (amended): for every `(filing kind, section identifier)` pair whose
computed marker list is empty — which happens only for kinds outside the
three known ones, since every 10-K/10-Q/8-K section receives at least a
generic marker rule — `validate_section_content` returns true for any
non-empty text. -/
theorem validator_empty_rule_table_permissive (content s ft : List Char)
    (hr : expected_headers ft s = []) (hc : content ≠ []) :
    validate_section_content content s ft = true := by
  simp only [validate_section_content]
  rw [if_neg hc]
  simp [hr]

/-- C4 witness: the kind `"S-1"` is outside the rule table, so any non-empty
text is accepted. -/
theorem validator_empty_rule_table_permissive_witness :
    validate_section_content "hello".data "9Z".data "S-1".data = true :=
  validator_empty_rule_table_permissive _ _ _ (by decide) (by decide)

/-- C5: for every filing kind (of the three) and every requested section
identifier, `validate_section_content` returns false on empty or
whitespace-only text, regardless of what the rule table contains for that
pair. -/
theorem validator_rejects_blank_content (content s ft : List Char)
    (hft : ft = "10-K".data ∨ ft = "10-Q".data ∨ ft = "8-K".data)
    (hblank : ∀ c ∈ content, pySpace c = true) :
    validate_section_content content s ft = false := by
  simp only [validate_section_content]
  by_cases hc : content = []
  · rw [if_pos hc]
  · rw [if_neg hc]
    have hne := expected_headers_ne_nil ft s hft
    simp only [hne, Bool.false_eq_true, if_false]
    rw [List.any_eq_false]
    intro h hm hsub
    obtain ⟨c, hcm, hcs⟩ := expected_headers_solid ft s hft h hm
    have hmem : c ∈ toUpperL content := subIn_subset hsub c hcm
    have := pySpace_toUpperL hblank c hmem
    rw [hcs] at this
    exact Bool.false_ne_true this

/-- C5 witness: whitespace-only text fails for `("10-K", "5")`. -/
theorem validator_rejects_blank_content_witness :
    validate_section_content "  \t".data "5".data "10-K".data = false :=
  validator_rejects_blank_content _ _ _ (Or.inl rfl) (by decide)

/-! ## Helper lemmas: the scrape loop -/

theorem processOne_sectionId (r : ExtractResult) (s ft : List Char) :
    (processOne r s ft).1.sectionId = s ∧ (processOne r s ft).2.sectionId = s := by
  cases r with
  | err e => simp [processOne]
  | ok t =>
      by_cases h1 : t ≠ [] ∧ pyStrip t ≠ []
      · by_cases h2 : validate_section_content t s ft = true
        · simp [processOne, h1, h2]
        · simp [processOne, h1, h2]
      · simp [processOne, h1]

theorem scrapeLoop_lengths (ext : Nat → ExtractResult) (ft : List Char) :
    ∀ (l : List (List Char)) (i : Nat),
      (scrapeLoop ext ft l i).display.length = l.length ∧
      (scrapeLoop ext ft l i).storage.length = l.length := by
  intro l
  induction l with
  | nil => intro i; simp [scrapeLoop]
  | cons sid rest ih => intro i; simp [scrapeLoop, ih (i + 1)]

theorem scrapeLoop_getD (ext : Nat → ExtractResult) (ft : List Char) :
    ∀ (l : List (List Char)) (i j : Nat), j < l.length →
      (scrapeLoop ext ft l i).display.getD j d0
          = (processOne (ext (i + j)) (l.getD j []) ft).2 ∧
      (scrapeLoop ext ft l i).storage.getD j d0
          = (processOne (ext (i + j)) (l.getD j []) ft).1 := by
  intro l
  induction l with
  | nil => intro i j h; simp at h
  | cons sid rest ih =>
      intro i j h
      cases j with
      | zero => simp [scrapeLoop]
      | succ j' =>
          have h' : j' < rest.length := Nat.lt_of_succ_lt_succ (by simpa using h)
          have hrec := ih (i + 1) j' h'
          have harith : i + (j' + 1) = (i + 1) + j' := by omega
          simp only [scrapeLoop, List.getD_cons_succ, harith]
          exact hrec

theorem scrapeLoop_counts (ext : Nat → ExtractResult) (ft : List Char) :
    ∀ (l : List (List Char)) (i : Nat),
      (scrapeLoop ext ft l i).successful
          = ((scrapeLoop ext ft l i).display.filter (fun e => e.success)).length ∧
      (scrapeLoop ext ft l i).failed
          = ((scrapeLoop ext ft l i).display.filter (fun e => !e.success)).length ∧
      (scrapeLoop ext ft l i).successful + (scrapeLoop ext ft l i).failed = l.length := by
  intro l
  induction l with
  | nil => intro i; simp [scrapeLoop]
  | cons sid rest ih =>
      intro i
      obtain ⟨i1, i2, i3⟩ := ih (i + 1)
      by_cases hs : (processOne (ext i) sid ft).2.success = true
      · simp [scrapeLoop, List.filter_cons, hs, i1, i2]
        omega
      · have hs' : (processOne (ext i) sid ft).2.success = false := by
          cases h2 : (processOne (ext i) sid ft).2.success
          · rfl
          · exact absurd h2 hs
        simp [scrapeLoop, List.filter_cons, hs', i1, i2]
        omega

theorem truncateDisplay_spec (t : List Char) :
    (truncateDisplay t).length ≤ 503 ∧
    (t.length ≤ 500 → truncateDisplay t = t) ∧
    (500 < t.length →
      truncateDisplay t = t.take 500 ++ "...".data ∧ (truncateDisplay t).length = 503) := by
  by_cases h : t.length > 500
  · have hlen : (t.take 500 ++ "...".data).length = 503 := by
      simp [List.length_append, List.length_take]
      omega
    have he : truncateDisplay t = t.take 500 ++ "...".data := by
      simp [truncateDisplay, h]
    exact ⟨by rw [he, hlen], fun hle => absurd h (by omega), fun _ => ⟨he, by rw [he, hlen]⟩⟩
  · have he : truncateDisplay t = t := by simp [truncateDisplay, h]
    exact ⟨by rw [he]; omega, fun _ => he, fun hgt => absurd hgt h⟩

theorem alookup_append_fresh {V : Type} (l : List (List Char × V)) (k : List Char) (v : V)
    (h : alookup l k = none) : alookup (l ++ [(k, v)]) k = some v := by
  rw [← aset_fresh_append l k v h]
  exact alookup_aset_self l k v

theorem aset_append_last {V : Type} (l : List (List Char × V)) (k : List Char) (v v' : V)
    (h : alookup l k = none) : aset (l ++ [(k, v)]) k v' = l ++ [(k, v')] := by
  induction l with
  | nil => simp [aset]
  | cons p ps ih =>
      simp only [alookup] at h
      by_cases hp : p.1 = k
      · simp [hp] at h
      · simp only [List.cons_append, aset, hp, if_neg hp] at *
        simp [ih h]

/-! ## Claims C6, C7, C10: the orchestrator -/

/-- C6: for every section that succeeds in a run, the storage record holds
the full untruncated extracted text of that occurrence's single extractor
call, and the display record holds the same text truncated to its first 500
characters plus an ellipsis exactly when it is longer than 500 characters
(hence at most 503 characters) — both derived from the one extractor
outcome `ext j`. -/
theorem stored_full_display_truncated (ext : Nat → ExtractResult) (ft : List Char)
    (secs : List (List Char)) (j : Nat) (hj : j < secs.length)
    (hsucc : ((scrapeLoop ext ft secs 0).display.getD j d0).success = true) :
    ∃ t, ext j = ExtractResult.ok t ∧
      ((scrapeLoop ext ft secs 0).storage.getD j d0).success = true ∧
      ((scrapeLoop ext ft secs 0).storage.getD j d0).content = t ∧
      ((scrapeLoop ext ft secs 0).storage.getD j d0).content_length = t.length ∧
      ((scrapeLoop ext ft secs 0).display.getD j d0).content = truncateDisplay t ∧
      ((scrapeLoop ext ft secs 0).display.getD j d0).content_length = t.length ∧
      ((scrapeLoop ext ft secs 0).display.getD j d0).content.length ≤ 503 ∧
      (t.length ≤ 500 → truncateDisplay t = t) ∧
      (500 < t.length → truncateDisplay t = t.take 500 ++ "...".data) := by
  obtain ⟨hd, hst⟩ := scrapeLoop_getD ext ft secs 0 j hj
  rw [Nat.zero_add] at hd hst
  rw [hd] at hsucc
  rw [hd, hst]
  cases hext : ext j with
  | err e => rw [hext] at hsucc; simp [processOne] at hsucc
  | ok t =>
      rw [hext] at hsucc
      by_cases h1 : t ≠ [] ∧ pyStrip t ≠ []
      · by_cases h2 : validate_section_content t (secs.getD j []) ft = true
        · obtain ⟨l1, l2, l3⟩ := truncateDisplay_spec t
          have hred : processOne (ExtractResult.ok t) (secs.getD j []) ft =
              ({ sectionId := secs.getD j [], success := true,
                 content_length := t.length, content := t },
               { sectionId := secs.getD j [], success := true,
                 content_length := t.length, content := truncateDisplay t }) := by
            simp only [processOne]
            rw [if_pos h1, if_pos h2]
          rw [hred]
          exact ⟨t, rfl, rfl, rfl, rfl, rfl, rfl, l1, l2, fun hgt => (l3 hgt).1⟩
        · simp only [processOne] at hsucc
          rw [if_pos h1, if_neg h2] at hsucc
          simp at hsucc
      · simp only [processOne] at hsucc
        rw [if_neg h1] at hsucc
        simp at hsucc

/-- C6 witness: one successful 10-K section `7A`. -/
theorem stored_full_display_truncated_witness :
    ∃ t, extW 0 = ExtractResult.ok t ∧
      ((scrapeLoop extW "10-K".data ["7A".data] 0).storage.getD 0 d0).success = true ∧
      ((scrapeLoop extW "10-K".data ["7A".data] 0).storage.getD 0 d0).content = t ∧
      ((scrapeLoop extW "10-K".data ["7A".data] 0).storage.getD 0 d0).content_length = t.length ∧
      ((scrapeLoop extW "10-K".data ["7A".data] 0).display.getD 0 d0).content = truncateDisplay t ∧
      ((scrapeLoop extW "10-K".data ["7A".data] 0).display.getD 0 d0).content_length = t.length ∧
      ((scrapeLoop extW "10-K".data ["7A".data] 0).display.getD 0 d0).content.length ≤ 503 ∧
      (t.length ≤ 500 → truncateDisplay t = t) ∧
      (500 < t.length → truncateDisplay t = t.take 500 ++ "...".data) :=
  stored_full_display_truncated extW "10-K".data ["7A".data] 0 (by decide) (by decide)

/-- C7: the display result list has exactly one outcome per occurrence of
the caller-supplied list, in the caller-supplied order (entry `j` carries the
`j`-th requested identifier), and each outcome is a function of only that
occurrence's own extractor call — so one section's failure never affects the
others. -/
theorem display_order_and_isolation (ext : Nat → ExtractResult) (ft : List Char)
    (secs : List (List Char)) :
    (scrapeLoop ext ft secs 0).display.length = secs.length ∧
    (scrapeLoop ext ft secs 0).storage.length = secs.length ∧
    ∀ j, j < secs.length →
      (scrapeLoop ext ft secs 0).display.getD j d0
          = (processOne (ext j) (secs.getD j []) ft).2 ∧
      ((scrapeLoop ext ft secs 0).display.getD j d0).sectionId = secs.getD j [] := by
  obtain ⟨hl1, hl2⟩ := scrapeLoop_lengths ext ft secs 0
  refine ⟨hl1, hl2, fun j hj => ?_⟩
  obtain ⟨hd, _⟩ := scrapeLoop_getD ext ft secs 0 j hj
  rw [Nat.zero_add] at hd
  exact ⟨hd, by rw [hd]; exact (processOne_sectionId (ext j) (secs.getD j []) ft).2⟩

/-- C7 witness: requesting `["7A", "1", "9A"]` (second call failing is also
covered by `extMixed` elsewhere); entry 1 is the outcome of occurrence 1. -/
theorem display_order_and_isolation_witness :
    (scrapeLoop extW "10-K".data ["7A".data, "1".data, "9A".data] 0).display.getD 1 d0
        = (processOne (extW 1) "1".data "10-K".data).2 ∧
    ((scrapeLoop extW "10-K".data ["7A".data, "1".data, "9A".data] 0).display.getD 1 d0).sectionId
        = "1".data :=
  (display_order_and_isolation extW "10-K".data ["7A".data, "1".data, "9A".data]).2.2 1
    (by decide)

/-- C10: every scrape run that passes input validation returns a summary
with `successful + failed = total = length of the requested list`, and
`successful`/`failed` count exactly the result entries carrying
`success = true` / `success = false`. -/
theorem scrape_summary_consistent (ext : Nat → ExtractResult) (avail : Bool)
    (fail : FailAt) (store : Store) (url : List Char) (secs : List (List Char))
    (now : PyDateTime) (h1 : url ≠ []) (h2 : secs ≠ [])
    (h3 : subIn "sec.gov".data url = true) :
    ∃ resp, (scrape ext avail fail store url secs now).2 = Except.ok resp ∧
      resp.successful_sections + resp.failed_sections = resp.total_sections ∧
      resp.total_sections = secs.length ∧
      resp.successful_sections = (resp.results.filter (fun e => e.success)).length ∧
      resp.failed_sections = (resp.results.filter (fun e => !e.success)).length := by
  obtain ⟨c1, c2, c3⟩ :=
    scrapeLoop_counts ext (detect_filing_type url) secs 0
  unfold scrape
  rw [if_neg (by simp [h1]), if_neg (by simp [h2]), if_neg (by simp [h3])]
  exact ⟨_, rfl, by simpa using c3, rfl, c1, c2⟩

/-- C10 witness: a two-section run against the store-available backend. -/
theorem scrape_summary_consistent_witness :
    ∃ resp, (scrape extMixed true .noFail [] urlW ["1".data, "1".data] dtW1).2
        = Except.ok resp ∧
      resp.successful_sections + resp.failed_sections = resp.total_sections ∧
      resp.total_sections = (["1".data, "1".data] : List (List Char)).length ∧
      resp.successful_sections = (resp.results.filter (fun e => e.success)).length ∧
      resp.failed_sections = (resp.results.filter (fun e => !e.success)).length :=
  scrape_summary_consistent extMixed true .noFail [] urlW ["1".data, "1".data] dtW1
    (by decide) (by decide) (by decide)

/-! ## Claim C8: session identifiers -/

/-- C8 (code bug): `generate_session_id` has only second granularity, so two
distinct runs inside the same second get the same identifier, and the second
commit overwrites the first Session — the filing ends with one session
document but `total_sessions = 2`. -/
theorem session_id_second_collision :
    generate_session_id dtW1 = generate_session_id dtW2 ∧ dtW1 ≠ dtW2 ∧
    (alookup (save_to_firestore true .noFail
        ((save_to_firestore true .noFail [] urlW "10-K".data [entryOkW] ["1".data] dtW1).1)
        urlW "10-K".data [entryOkW] ["1".data] dtW2).1
        (generate_filing_id urlW)).map (fun f => (f.sessions.length, f.total_sessions))
      = some (1, 2) := by
  set_option maxRecDepth 100000 in decide

/-! ## Claim C9: filing identifiers -/

theorem md5Digest_length (msg : List Nat) : (md5Digest msg).length = 16 := by
  rcases hfold : (md5Blocks (md5Pad msg)).foldl md5Block
      (0x67452301, 0xefcdab89, 0x98badcfe, 0x10325476) with ⟨a, b, c, d⟩
  simp [md5Digest, hfold, List.flatMap_cons, List.length_append, List.length_map,
    List.length_range]

theorem flatMap_pair_length (l : List Nat) (f g : Nat → Char) :
    (l.flatMap (fun b => [f b, g b])).length = 2 * l.length := by
  induction l with
  | nil => simp
  | cons x xs ih =>
      simp [List.flatMap_cons, ih]
      omega

theorem md5Hex_length (msg : List Nat) : (md5Hex msg).length = 32 := by
  unfold md5Hex
  rw [flatMap_pair_length, md5Digest_length]

/-- C9: `generate_filing_id` is a pure function of the reference string: two
calls on equal references agree, the result is always 12 characters, and the
hash is standard MD5 (checked against the RFC 1321 test vector), not a
language-intrinsic non-portable hash. -/
theorem filing_id_pure_deterministic :
    (∀ u v : List Char, u = v → generate_filing_id u = generate_filing_id v) ∧
    (∀ u : List Char, (generate_filing_id u).length = 12) ∧
    md5Hex (utf8Bytes []) = "d41d8cd98f00b204e9800998ecf8427e".data := by
  refine ⟨fun u v h => by rw [h], fun u => ?_, by decide⟩
  unfold generate_filing_id
  rw [List.length_take, md5Hex_length]
  decide

/-- C9 witness: determinism and length at a concrete reference. -/
theorem filing_id_pure_deterministic_witness :
    generate_filing_id urlW = generate_filing_id urlW ∧
    (generate_filing_id urlW).length = 12 :=
  ⟨filing_id_pure_deterministic.1 urlW urlW rfl, filing_id_pure_deterministic.2.1 urlW⟩

/-! ## Claims C1 and C3: commit atomicity and failure semantics -/

/-- C1, counterexample: with a simulated failure at the section batch commit
the call reports failure, yet the Session document is already visible with
`sections_count = 1` and an empty `sections` sub-collection — the Filing
upsert, Session write and section batch are not one all-or-nothing write. -/
theorem session_visible_without_sections_cex :
    (save_to_firestore true .atBatch [] urlW "10-K".data [entryOkW] ["1".data] dtW1).2
        = (false, none, none) ∧
    ((alookup (save_to_firestore true .atBatch [] urlW "10-K".data [entryOkW]
          ["1".data] dtW1).1
        (generate_filing_id urlW)).bind
      (fun f => alookup f.sessions (generate_session_id dtW1))).map
        (fun s => (s.sections_count, s.sections.length)) = some (1, 0) := by
  decide

/-- C1 (amended): only the section batch is atomic, and only as a unit over
the session's pre-call state.  For every store (fresh or not) and every
failure point, the new Session's stored Section set after the call is
exactly what it was before the call — absent, empty, or (when the session
identifier collides with an earlier committed session) the earlier run's
records — and only a successful commit changes it, by applying all of this
run's Section records together onto that prior set.  No prefix of the run's
records is ever applied on its own; the Filing upsert and the Session record
remain separate writes preceding the batch, so a Session can be visible with
a Section set that does not match this run's outcomes. -/
theorem save_sections_batch_all_or_nothing (avail : Bool) (fail : FailAt) (store : Store)
    (url ft : List Char) (data : List SectionEntry) (req : List (List Char))
    (now : PyDateTime) :
    sessionSections (save_to_firestore avail fail store url ft data req now).1
        (generate_filing_id url) (generate_session_id now)
      = sessionSections store (generate_filing_id url) (generate_session_id now) ∨
    sessionSections (save_to_firestore avail fail store url ft data req now).1
        (generate_filing_id url) (generate_session_id now)
      = some ((sessionSections store (generate_filing_id url)
          (generate_session_id now)).getD []) ∨
    sessionSections (save_to_firestore avail fail store url ft data req now).1
        (generate_filing_id url) (generate_session_id now)
      = some (applyBatch ((sessionSections store (generate_filing_id url)
          (generate_session_id now)).getD []) data (generate_session_id now) now) := by
  cases avail with
  | false => left; simp [save_to_firestore]
  | true =>
      cases hex : alookup store (generate_filing_id url) with
      | none =>
          have hss : sessionSections store (generate_filing_id url)
              (generate_session_id now) = none := by
            unfold sessionSections
            rw [hex]
          cases fail with
          | atFilingSet =>
              left
              simp [save_to_firestore]
          | atSessionSet =>
              left
              rw [hss]
              simp [save_to_firestore, hex, sessionSections, alookup_aset_self, alookup]
          | atBatch =>
              right; left
              rw [hss]
              simp [save_to_firestore, hex, sessionSections, setSessionDoc,
                alookup_aset_self, alookup, aset]
          | noFail =>
              right; right
              rw [hss]
              simp [save_to_firestore, hex, sessionSections, setSessionDoc,
                alookup_aset_self, alookup, aset]
      | some f =>
          cases hses : alookup f.sessions (generate_session_id now) with
          | none =>
              have hss : sessionSections store (generate_filing_id url)
                  (generate_session_id now) = none := by
                simp [sessionSections, hex, hses]
              cases fail with
              | atFilingSet =>
                  left
                  simp [save_to_firestore]
              | atSessionSet =>
                  left
                  rw [hss]
                  simp [save_to_firestore, hex, sessionSections, alookup_aset_self, hses]
              | atBatch =>
                  right; left
                  rw [hss]
                  simp [save_to_firestore, hex, sessionSections, setSessionDoc, hses,
                    alookup_aset_self, aset_fresh_append _ _ _ hses,
                    alookup_append_fresh _ _ _ hses]
              | noFail =>
                  right; right
                  rw [hss]
                  simp [save_to_firestore, hex, sessionSections, setSessionDoc, hses,
                    alookup_aset_self, aset_fresh_append _ _ _ hses,
                    alookup_append_fresh _ _ _ hses, aset_append_last _ _ _ _ hses]
          | some olds =>
              have hss : sessionSections store (generate_filing_id url)
                  (generate_session_id now) = some olds.sections := by
                simp [sessionSections, hex, hses]
              cases fail with
              | atFilingSet =>
                  left
                  simp [save_to_firestore]
              | atSessionSet =>
                  left
                  rw [hss]
                  simp [save_to_firestore, hex, sessionSections, alookup_aset_self, hses]
              | atBatch =>
                  right; left
                  rw [hss]
                  simp [save_to_firestore, hex, sessionSections, setSessionDoc, hses,
                    alookup_aset_self]
              | noFail =>
                  right; right
                  rw [hss]
                  simp [save_to_firestore, hex, sessionSections, setSessionDoc, hses,
                    alookup_aset_self]

/-- C1 witness: an existing filing, a colliding session identifier (same
second as the first commit) and a failure at the batch — the scenario where
the prior Section set is the earlier run's nonempty records. -/
theorem save_sections_batch_all_or_nothing_witness :
    sessionSections (save_to_firestore true .atBatch
        ((save_to_firestore true .noFail [] urlW "10-K".data [entryOkW]
          ["1".data] dtW1).1)
        urlW "10-K".data [entryOkW, entryOk2W] ["1".data, "2".data] dtW2).1
        (generate_filing_id urlW) (generate_session_id dtW2)
      = sessionSections ((save_to_firestore true .noFail [] urlW "10-K".data [entryOkW]
          ["1".data] dtW1).1)
          (generate_filing_id urlW) (generate_session_id dtW2) ∨
    sessionSections (save_to_firestore true .atBatch
        ((save_to_firestore true .noFail [] urlW "10-K".data [entryOkW]
          ["1".data] dtW1).1)
        urlW "10-K".data [entryOkW, entryOk2W] ["1".data, "2".data] dtW2).1
        (generate_filing_id urlW) (generate_session_id dtW2)
      = some ((sessionSections ((save_to_firestore true .noFail [] urlW "10-K".data [entryOkW]
          ["1".data] dtW1).1)
          (generate_filing_id urlW) (generate_session_id dtW2)).getD []) ∨
    sessionSections (save_to_firestore true .atBatch
        ((save_to_firestore true .noFail [] urlW "10-K".data [entryOkW]
          ["1".data] dtW1).1)
        urlW "10-K".data [entryOkW, entryOk2W] ["1".data, "2".data] dtW2).1
        (generate_filing_id urlW) (generate_session_id dtW2)
      = some (applyBatch ((sessionSections ((save_to_firestore true .noFail [] urlW
          "10-K".data [entryOkW] ["1".data] dtW1).1)
          (generate_filing_id urlW) (generate_session_id dtW2)).getD [])
          [entryOkW, entryOk2W] (generate_session_id dtW2) dtW2) :=
  save_sections_batch_all_or_nothing true .atBatch
    ((save_to_firestore true .noFail [] urlW "10-K".data [entryOkW] ["1".data] dtW1).1)
    urlW "10-K".data [entryOkW, entryOk2W] ["1".data, "2".data] dtW2

/-- After a first committed run for section 1, a second run for sections 1
and 2 whose session identifier collides (same second) and whose batch fails
leaves the session rewritten with the new counts while its stored Section
set still holds only the earlier run's record — a nonempty set differing
from the new run's outcomes. -/
theorem session_batch_failure_keeps_prior_sections :
    ((alookup (save_to_firestore true .atBatch
        ((save_to_firestore true .noFail [] urlW "10-K".data [entryOkW]
          ["1".data] dtW1).1)
        urlW "10-K".data [entryOkW, entryOk2W] ["1".data, "2".data] dtW2).1
        (generate_filing_id urlW)).bind
      (fun f => alookup f.sessions (generate_session_id dtW2))).map
        (fun s => (s.sections_count, s.sections.map Prod.fst)) = some (2, [['1']]) := by
  set_option maxRecDepth 1000000 in decide

/-- C3, counterexample: a failure injected at the Session write still returns
`(False, None, None)`, but the Filing document has already been written —
the call does perform partial writes. -/
theorem save_failure_partial_write_cex :
    (save_to_firestore true .atSessionSet [] urlW "10-K".data [entryOkW]
        ["1".data] dtW1).2 = (false, none, none) ∧
    (alookup (save_to_firestore true .atSessionSet [] urlW "10-K".data [entryOkW]
        ["1".data] dtW1).1
      (generate_filing_id urlW)).isSome = true ∧
    alookup ([] : Store) (generate_filing_id urlW) = none := by
  decide

/-- C3 (amended): whenever the store is unavailable or the commit fails,
`save_to_firestore` returns `(False, None, None)` and raises nothing, and
`scrape` still returns the in-memory display results with
`firestore_saved = false` and null identifiers; writes performed before the
failure point remain in place. -/
theorem save_failure_reported_whole (ext : Nat → ExtractResult) (avail : Bool)
    (fail : FailAt) (store : Store) (url ft : List Char) (data : List SectionEntry)
    (req secs : List (List Char)) (now : PyDateTime)
    (hfail : avail = false ∨ fail ≠ FailAt.noFail) :
    (save_to_firestore avail fail store url ft data req now).2 = (false, none, none) ∧
    (∀ store' resp, scrape ext avail fail store url secs now = (store', Except.ok resp) →
      resp.firestore_saved = false ∧ resp.filing_id = none ∧ resp.session_id = none ∧
      resp.results = (scrapeLoop ext (detect_filing_type url) secs 0).display ∧
      resp.successful_sections = (scrapeLoop ext (detect_filing_type url) secs 0).successful ∧
      resp.failed_sections = (scrapeLoop ext (detect_filing_type url) secs 0).failed) := by
  have hsave : ∀ (st : Store) (u f : List Char) (d : List SectionEntry)
      (r : List (List Char)) (n : PyDateTime),
      (save_to_firestore avail fail st u f d r n).2 = (false, none, none) := by
    intro st u f d r n
    cases avail with
    | false => simp [save_to_firestore]
    | true =>
        rcases hfail with hx | hne
        · exact absurd hx (by simp)
        · cases fail with
          | noFail => exact absurd rfl hne
          | atFilingSet => simp [save_to_firestore]
          | atSessionSet => simp [save_to_firestore]
          | atBatch => simp [save_to_firestore]
  refine ⟨hsave store url ft data req now, fun store' resp h => ?_⟩
  unfold scrape at h
  by_cases h1 : url.isEmpty = true
  · rw [if_pos h1] at h
    injection h with _ hb
    exact absurd hb (by simp)
  rw [if_neg h1] at h
  by_cases h2 : secs.isEmpty = true
  · rw [if_pos h2] at h
    injection h with _ hb
    exact absurd hb (by simp)
  rw [if_neg h2] at h
  by_cases h3 : subIn "sec.gov".data url = true
  case neg =>
    rw [if_pos (by simpa using h3)] at h
    injection h with _ hb
    exact absurd hb (by simp)
  rw [if_neg (by simpa using h3)] at h
  injection h with ha hb
  injection hb with hb
  subst hb
  have hs := hsave store url (detect_filing_type url)
    (scrapeLoop ext (detect_filing_type url) secs 0).storage secs now
  refine ⟨?_, ?_, ?_, rfl, rfl, rfl⟩
  · show (save_to_firestore avail fail store url (detect_filing_type url)
      (scrapeLoop ext (detect_filing_type url) secs 0).storage secs now).2.1 = false
    rw [hs]
  · show (save_to_firestore avail fail store url (detect_filing_type url)
      (scrapeLoop ext (detect_filing_type url) secs 0).storage secs now).2.2.1 = none
    rw [hs]
  · show (save_to_firestore avail fail store url (detect_filing_type url)
      (scrapeLoop ext (detect_filing_type url) secs 0).storage secs now).2.2.2 = none
    rw [hs]

/-- C3 witness: a concrete run with a batch-commit failure still reports the
in-memory results. -/
theorem save_failure_reported_whole_witness :
    (save_to_firestore true .atBatch [] urlW "10-K".data [entryOkW]
        ["1".data] dtW1).2 = (false, none, none) ∧
    (∀ store' resp,
      scrape extMixed true .atBatch [] urlW ["1".data] dtW1 = (store', Except.ok resp) →
      resp.firestore_saved = false ∧ resp.filing_id = none ∧ resp.session_id = none ∧
      resp.results = (scrapeLoop extMixed (detect_filing_type urlW) ["1".data] 0).display ∧
      resp.successful_sections
          = (scrapeLoop extMixed (detect_filing_type urlW) ["1".data] 0).successful ∧
      resp.failed_sections
          = (scrapeLoop extMixed (detect_filing_type urlW) ["1".data] 0).failed) :=
  save_failure_reported_whole extMixed true .atBatch [] urlW "10-K".data [entryOkW]
    ["1".data] ["1".data] dtW1 (Or.inr (by decide))

/-! ## Helper lemmas towards claim C2 -/

theorem alookup_eq_none_of_not_mem {V : Type} (l : List (List Char × V)) (k : List Char)
    (h : k ∉ l.map Prod.fst) : alookup l k = none := by
  induction l with
  | nil => rfl
  | cons p ps ih =>
      simp only [List.map_cons, List.mem_cons] at h
      push_neg at h
      simp only [alookup, if_neg (fun hq : p.1 = k => h.1 hq.symm)]
      exact ih h.2

theorem alookup_mem {V : Type} (l : List (List Char × V)) (k : List Char) (v : V)
    (h : alookup l k = some v) : (k, v) ∈ l := by
  induction l with
  | nil => simp [alookup] at h
  | cons p ps ih =>
      simp only [alookup] at h
      by_cases hp : p.1 = k
      · rw [if_pos hp] at h
        injection h with h
        have hpe : p = (k, v) := by
          obtain ⟨p1, p2⟩ := p
          simp only at hp h
          rw [hp, h]
        rw [← hpe]
        exact List.mem_cons_self p ps
      · rw [if_neg hp] at h
        exact List.mem_cons_of_mem p (ih h)

theorem mem_alookup_of_nodup {V : Type} (l : List (List Char × V)) (k : List Char) (v : V)
    (hnd : (l.map Prod.fst).Nodup) (h : (k, v) ∈ l) : alookup l k = some v := by
  induction l with
  | nil => simp at h
  | cons p ps ih =>
      simp only [List.map_cons, List.nodup_cons] at hnd
      rcases List.mem_cons.mp h with rfl | hmem
      · simp [alookup]
      · have hk : p.1 ≠ k := by
          intro hq
          exact hnd.1 (hq ▸ List.mem_map.mpr ⟨(k, v), hmem, rfl⟩)
        simp only [alookup, if_neg hk]
        exact ih hnd.2 hmem

theorem mem_keys_aset {V : Type} (l : List (List Char × V)) (k : List Char) (v : V)
    (x : List Char) (h : x ∈ (aset l k v).map Prod.fst) :
    x = k ∨ x ∈ l.map Prod.fst := by
  induction l with
  | nil =>
      simp only [aset, List.map_cons, List.map_nil, List.mem_cons,
        List.not_mem_nil, or_false] at h
      exact Or.inl h
  | cons p ps ih =>
      by_cases hp : p.1 = k
      · simp only [aset, if_pos hp, List.map_cons, List.mem_cons] at h
        rcases h with rfl | h
        · exact Or.inl rfl
        · exact Or.inr (List.mem_cons_of_mem p.1 h)
      · simp only [aset, if_neg hp, List.map_cons, List.mem_cons] at h
        rcases h with rfl | h
        · exact Or.inr (List.mem_cons_self p.1 (ps.map Prod.fst))
        · rcases ih h with h | h
          · exact Or.inl h
          · exact Or.inr (List.mem_cons_of_mem p.1 h)

theorem aset_nodup_keys {V : Type} (l : List (List Char × V)) (k : List Char) (v : V)
    (h : (l.map Prod.fst).Nodup) : ((aset l k v).map Prod.fst).Nodup := by
  induction l with
  | nil => simp [aset]
  | cons p ps ih =>
      simp only [List.map_cons, List.nodup_cons] at h
      by_cases hp : p.1 = k
      · simp only [aset, if_pos hp, List.map_cons, List.nodup_cons]
        exact ⟨hp ▸ h.1, h.2⟩
      · simp only [aset, if_neg hp, List.map_cons, List.nodup_cons]
        refine ⟨fun hmem => ?_, ih h.2⟩
        rcases mem_keys_aset ps k v p.1 hmem with hq | hq
        · exact hp hq
        · exact h.1 hq

theorem applyBatch_nodup_keys (data : List SectionEntry)
    (m : List (List Char × SectionDoc)) (sid : List Char) (now : PyDateTime)
    (h : (m.map Prod.fst).Nodup) :
    ((applyBatch m data sid now).map Prod.fst).Nodup := by
  induction data generalizing m with
  | nil => exact h
  | cons e rest ih =>
      exact ih (aset m e.sectionId (mkSectionDoc e sid now))
        (aset_nodup_keys m e.sectionId (mkSectionDoc e sid now) h)

theorem applyBatch_alookup (sid : List Char) (now : PyDateTime) :
    ∀ (data : List SectionEntry) (m : List (List Char × SectionDoc)) (x : List Char),
      alookup (applyBatch m data sid now) x =
        match lastWith data x with
        | some e => some (mkSectionDoc e sid now)
        | none => alookup m x := by
  intro data
  induction data with
  | nil => intro m x; rfl
  | cons e rest ih =>
      intro m x
      have hstep : applyBatch m (e :: rest) sid now
          = applyBatch (aset m e.sectionId (mkSectionDoc e sid now)) rest sid now := rfl
      rw [hstep, ih]
      cases hl : lastWith rest x with
      | some e' => simp [lastWith, hl]
      | none =>
          simp only [lastWith, hl]
          by_cases hx : e.sectionId = x
          · rw [if_pos hx, ← hx]
            exact alookup_aset_self m e.sectionId (mkSectionDoc e sid now)
          · rw [if_neg hx]
            exact alookup_aset_ne m e.sectionId x (mkSectionDoc e sid now)
              (fun hq => hx hq.symm)

theorem lastWith_mem (data : List SectionEntry) (x : List Char) (e : SectionEntry)
    (h : lastWith data x = some e) : e ∈ data ∧ e.sectionId = x := by
  induction data with
  | nil => simp [lastWith] at h
  | cons e0 rest ih =>
      simp only [lastWith] at h
      cases hl : lastWith rest x with
      | some e' =>
          rw [hl] at h
          injection h with h
          obtain ⟨hm, hs⟩ := ih (h ▸ hl)
          exact ⟨List.mem_cons_of_mem e0 hm, hs⟩
      | none =>
          rw [hl] at h
          by_cases hx : e0.sectionId = x
          · rw [if_pos hx] at h
            injection h with h
            exact ⟨by simp [← h], h ▸ hx⟩
          · rw [if_neg hx] at h
            exact absurd h (by simp)

theorem lastWith_isSome_of_mem (data : List SectionEntry) (x : List Char)
    (e : SectionEntry) (hm : e ∈ data) (hx : e.sectionId = x) :
    ∃ e', lastWith data x = some e' := by
  induction data with
  | nil => simp at hm
  | cons e0 rest ih =>
      rcases List.mem_cons.mp hm with h0 | hmem
      · cases hl : lastWith rest x with
        | some e' => exact ⟨e', by simp [lastWith, hl]⟩
        | none =>
            refine ⟨e0, ?_⟩
            simp only [lastWith, hl]
            rw [if_pos (h0 ▸ hx)]
      · obtain ⟨e', he'⟩ := ih hmem
        exact ⟨e', by simp [lastWith, he']⟩

theorem storedSuccessIds_mem (m : List (List Char × SectionDoc)) (x : List Char) :
    x ∈ storedSuccessIds m ↔ ∃ d, (x, d) ∈ m ∧ d.success = true := by
  unfold storedSuccessIds
  rw [List.mem_toFinset]
  constructor
  · intro h
    rcases List.mem_map.mp h with ⟨p, hp, rfl⟩
    rcases List.mem_filter.mp hp with ⟨hm, hs⟩
    exact ⟨p.2, by simpa using hm, by simpa using hs⟩
  · rintro ⟨d, hm, hs⟩
    exact List.mem_map.mpr ⟨(x, d), List.mem_filter.mpr ⟨hm, by simpa using hs⟩, rfl⟩

theorem anySuccessIds_mem (data : List SectionEntry) (x : List Char) :
    x ∈ anySuccessIds data ↔ ∃ e ∈ data, e.success = true ∧ e.sectionId = x := by
  unfold anySuccessIds
  rw [List.mem_toFinset]
  constructor
  · intro h
    rcases List.mem_map.mp h with ⟨e, he, rfl⟩
    rcases List.mem_filter.mp he with ⟨hm, hs⟩
    exact ⟨e, hm, by simpa using hs, rfl⟩
  · rintro ⟨e, hm, hs, rfl⟩
    exact List.mem_map.mpr ⟨e, List.mem_filter.mpr ⟨hm, by simpa using hs⟩, rfl⟩

/-- Under consistent duplicate flags, the stored successful section ids of a
freshly batched session are exactly the run's successful identifiers. -/
theorem storedSuccess_applyBatch (data : List SectionEntry) (sid : List Char)
    (now : PyDateTime) (hc : dupConsistent data) :
    storedSuccessIds (applyBatch [] data sid now) = anySuccessIds data := by
  ext x
  rw [storedSuccessIds_mem, anySuccessIds_mem]
  have hnd := applyBatch_nodup_keys data [] sid now (by simp)
  constructor
  · rintro ⟨d, hm, hs⟩
    have hl : alookup (applyBatch [] data sid now) x = some d :=
      mem_alookup_of_nodup _ _ _ hnd hm
    rw [applyBatch_alookup] at hl
    cases he : lastWith data x with
    | none => rw [he] at hl; simp [alookup] at hl
    | some e =>
        rw [he] at hl
        injection hl with hl
        obtain ⟨hmem, hsid⟩ := lastWith_mem data x e he
        refine ⟨e, hmem, ?_, hsid⟩
        have : d.success = e.success := by rw [← hl]; rfl
        rw [← this, hs]
  · rintro ⟨e, hm, hs, rfl⟩
    obtain ⟨e', he'⟩ := lastWith_isSome_of_mem data e.sectionId e hm rfl
    refine ⟨mkSectionDoc e' sid now, ?_, ?_⟩
    · apply alookup_mem
      rw [applyBatch_alookup, he']
    · obtain ⟨hm', hsid'⟩ := lastWith_mem data e.sectionId e' he'
      have := hc e' hm' e hm hsid'
      show e'.success = true
      rw [this, hs]

theorem scanUnion_nil : scanUnion [] = ∅ := rfl

theorem scanUnion_singleton (k : List Char) (v : SessionDoc) :
    scanUnion [(k, v)] = storedSuccessIds v.sections := by
  unfold scanUnion
  simp

theorem scanUnion_append_single (l : List (List Char × SessionDoc))
    (k : List Char) (v : SessionDoc) :
    scanUnion (l ++ [(k, v)]) = scanUnion l ∪ storedSuccessIds v.sections := by
  unfold scanUnion
  rw [List.foldl_append]
  rfl

theorem unionRuns_append_single (runs : List Run) (r : Run) :
    unionRuns (runs ++ [r]) = unionRuns runs ∪ anySuccessIds r.data := by
  unfold unionRuns
  rw [List.foldl_append]
  rfl

/-- Effect of one successful commit on the filing document: the new session
is appended with the batched section documents, and the unique-section count
is recomputed as the scanned union plus the run's successes. -/
theorem save_noFail_effect (store : Store) (url ft : List Char)
    (data : List SectionEntry) (req : List (List Char)) (now : PyDateTime)
    (hfresh : ∀ f, alookup store (generate_filing_id url) = some f →
        alookup f.sessions (generate_session_id now) = none) :
    ((alookup (save_to_firestore true .noFail store url ft data req now).1
          (generate_filing_id url)).map (fun f => f.sessions.map Prod.fst)
        = some ((oldSessions store (generate_filing_id url)).map Prod.fst
            ++ [generate_session_id now])) ∧
    ((alookup (save_to_firestore true .noFail store url ft data req now).1
          (generate_filing_id url)).map (fun f => scanUnion f.sessions)
        = some (scanUnion (oldSessions store (generate_filing_id url))
            ∪ storedSuccessIds
                (applyBatch [] data (generate_session_id now) now))) ∧
    ((alookup (save_to_firestore true .noFail store url ft data req now).1
          (generate_filing_id url)).map (fun f => f.total_unique_sections)
        = some ((scanUnion (oldSessions store (generate_filing_id url))
            ∪ anySuccessIds data).card)) := by
  cases hex : alookup store (generate_filing_id url) with
  | none =>
      unfold oldSessions
      rw [hex]
      simp [save_to_firestore, hex, alookup_aset_self, setSessionDoc, alookup, aset,
        scanUnion_singleton, scanUnion_nil, anySuccessIds]
  | some f =>
      have hses := hfresh f hex
      unfold oldSessions
      rw [hex]
      simp [save_to_firestore, hex, alookup_aset_self, setSessionDoc, hses,
        aset_fresh_append _ _ _ hses, alookup_append_fresh _ _ _ hses,
        aset_append_last _ _ _ _ hses,
        scanUnion_append_single, anySuccessIds]

theorem commitRuns_inv (url ft : List Char) :
    ∀ (rest done : List Run) (store : Store),
      ((done ++ rest).map sidOf).Nodup →
      (∀ r ∈ rest, dupConsistent r.data) →
      InvC2 store url done →
      InvC2 (commitRuns store url ft rest) url (done ++ rest) := by
  intro rest
  induction rest with
  | nil => intro done store hnd hc hinv; simpa using hinv
  | cons r rest ih =>
      intro done store hnd hc hinv
      have hold : (oldSessions store (generate_filing_id url)).map Prod.fst
            = done.map sidOf ∧
          scanUnion (oldSessions store (generate_filing_id url)) = unionRuns done := by
        rcases hinv with ⟨hdone, hnone⟩ | ⟨f0, hf0, hkeys, hscan, _⟩
        · subst hdone
          unfold oldSessions
          rw [hnone]
          exact ⟨rfl, rfl⟩
        · unfold oldSessions
          rw [hf0]
          exact ⟨hkeys, hscan⟩
      have hnotin : sidOf r ∉ done.map sidOf := by
        intro hmem
        rw [List.map_append] at hnd
        rcases List.nodup_append.mp hnd with ⟨_, _, hdisj⟩
        exact hdisj hmem (by simp)
      have hfresh : ∀ f, alookup store (generate_filing_id url) = some f →
          alookup f.sessions (generate_session_id r.time) = none := by
        intro f hf
        rcases hinv with ⟨hdone, hnone⟩ | ⟨f0, hf0, hkeys, _, _⟩
        · rw [hnone] at hf; cases hf
        · rw [hf0] at hf
          injection hf with hf
          subst hf
          apply alookup_eq_none_of_not_mem
          rw [hkeys]
          exact hnotin
      have hstep : InvC2
          ((save_to_firestore true .noFail store url ft r.data r.requested r.time).1)
          url (done ++ [r]) := by
        obtain ⟨e1, e2, e3⟩ :=
          save_noFail_effect store url ft r.data r.requested r.time hfresh
        cases halk : alookup
            ((save_to_firestore true .noFail store url ft r.data r.requested r.time).1)
            (generate_filing_id url) with
        | none => rw [halk] at e1; cases e1
        | some f' =>
            rw [halk] at e1 e2 e3
            simp only [Option.map_some', Option.some.injEq] at e1 e2 e3
            right
            refine ⟨f', halk, ?_, ?_, ?_⟩
            · rw [e1, hold.1, List.map_append]
              rfl
            · rw [e2, storedSuccess_applyBatch r.data _ _ (hc r (by simp)),
                hold.2, unionRuns_append_single]
            · rw [e3, hold.2, unionRuns_append_single]
      have hnd' : (((done ++ [r]) ++ rest).map sidOf).Nodup := by
        simpa [List.append_assoc] using hnd
      have hc' : ∀ r' ∈ rest, dupConsistent r'.data :=
        fun r' hr' => hc r' (List.mem_cons_of_mem r hr')
      have hres := ih (done ++ [r]) _ hnd' hc' hstep
      simpa [List.append_assoc] using hres

/-- C2 (amended): starting from a fresh Filing, for every sequence of
committed runs with distinct session identifiers whose outcome lists never
record conflicting success flags for a repeated identifier, the Filing's
`total_unique_sections` equals the size of the set-union of successful
section identifiers across the runs, which also equals the union over the
stored Session records. -/
theorem total_unique_sections_union (url ft : List Char) (runs : List Run)
    (hn : (runs.map sidOf).Nodup)
    (hc : ∀ r ∈ runs, dupConsistent r.data)
    (hne : runs ≠ []) :
    (alookup (commitRuns [] url ft runs) (generate_filing_id url)).map
        (fun f => (f.total_unique_sections, scanUnion f.sessions))
      = some ((unionRuns runs).card, unionRuns runs) := by
  have hinv := commitRuns_inv url ft runs [] [] (by simpa using hn) hc
    (Or.inl ⟨rfl, rfl⟩)
  simp only [List.nil_append] at hinv
  rcases hinv with ⟨hd, _⟩ | ⟨f, hf, _, hscan, htot⟩
  · exact absurd hd hne
  · rw [hf]
    simp [htot, hscan]

/-- C2, counterexample: the run requests `["1", "1"]`; the first extraction
succeeds, the second raises, so the Session's single stored Section record
for `1` has `success = false` (the batch overwrote the successful write),
yet `total_unique_sections` is 1 while the union of successful stored
Section records is empty. -/
theorem total_unique_sections_union_cex :
    (alookup (scrape extMixed true .noFail [] urlW ["1".data, "1".data] dtW1).1
        (generate_filing_id urlW)).map
      (fun f => (f.total_unique_sections, scanUnion f.sessions))
      = some (1, (∅ : Finset (List Char))) := by
  set_option maxRecDepth 1000000 in decide

/-- C2 witness: two consistent runs, the second repeating section 1 and
adding section 2. -/
theorem total_unique_sections_union_witness :
    (alookup (commitRuns [] urlW "10-K".data [runW1, runW2])
        (generate_filing_id urlW)).map
        (fun f => (f.total_unique_sections, scanUnion f.sessions))
      = some ((unionRuns [runW1, runW2]).card, unionRuns [runW1, runW2]) :=
  total_unique_sections_union urlW "10-K".data [runW1, runW2] (by decide) (by decide)
    (List.cons_ne_nil _ _)

/-! ## Embedding regression checks -/

/-- RFC 1321 test vector: MD5 of the empty message. -/
theorem md5Hex_empty_vector : md5Hex [] = "d41d8cd98f00b204e9800998ecf8427e".data := by
  decide

/-- RFC 1321 test vector: MD5 of `"abc"`. -/
theorem md5Hex_abc_vector :
    md5Hex (utf8Bytes "abc".data) = "900150983cd24fb0d6963f7d28e17f72".data := by
  decide

/-- The validator accepts matching marker text and rejects a substituted
section (spec §8's strictness example). -/
theorem validator_strictness_example :
    validate_section_content "xxx ITEM 1A. RISK".data "1A".data "10-K".data = true ∧
    validate_section_content "only ITEM 7. here".data "1A".data "10-K".data = false := by
  decide

/-- The session-id format example from the source docstring. -/
theorem session_id_format_example :
    generate_session_id ⟨2025, 7, 28, 12, 30, 45, 100⟩ = "2025-07-28_12-30-45".data := by
  decide

end SecScraper
